import Mathlib

/-!
Shallow embedding of src/api/syncMembers.js (Circle → Webflow member sync).

The JavaScript function syncCircleMembers:
  1. aborts when any of the four environment values is falsy;
  2. fetches members page by page from the Circle API, following nextCursor,
     treating a page without a members array as end of data, and aborting the
     whole run (outer try/catch) on any fetch failure;
  3. for each member extracts id, name, email, bio, profilePictureUrl, skips
     the member when id, name or email is falsy, searches Webflow by
     circleUserId, skips the member on a non-404 search error, updates the
     first matching item when the search returned items, otherwise creates a
     new item, and finally waits 200 ms before the next member.

Machine-level JS values that the code inspects (truthiness, String(...))
are modelled by JsVal; HTTP traffic is modelled as explicit request/event
lists; fallible calls are modelled by outcome parameters supplied by the
environment.
-/

/-- A JavaScript value as far as the sync code inspects it: absent/undefined,
a string, or a number (member ids can be either). -/
inductive JsVal where
  | vUndef : JsVal
  | vStr : String → JsVal
  | vNum : Int → JsVal
deriving DecidableEq

/-- JS truthiness for the values above: undefined, the empty string and 0 are
falsy, everything else truthy. -/
def jsTruthy : JsVal → Bool
  | .vUndef => false
  | .vStr s => s != ""
  | .vNum n => n != 0

/-- JS String(v) conversion, used for the slug and for URL interpolation. -/
def jsToString : JsVal → String
  | .vUndef => "undefined"
  | .vStr s => s
  | .vNum n => toString n

/-- The profile sub-object of a Circle member; only the fields the code reads
are modelled. Absent fields are none. -/
structure CircleProfile where
  name : Option String := none
  email : Option String := none
  bio : Option String := none
  profilePictureUrl : Option String := none
  photoUrl : Option String := none
deriving DecidableEq

/-- A member record as returned by the Circle API, restricted to the fields
the sync code reads. -/
structure CircleMember where
  id : JsVal := .vUndef
  name : Option String := none
  email : Option String := none
  profile : Option CircleProfile := none
deriving DecidableEq

/-- JS expression a || b for an optionally-present string a with default b:
the left operand is used when present and truthy (nonempty). -/
def jsOrElse (a : Option String) (b : String) : String :=
  match a with
  | some s => if s == "" then b else s
  | none => b

/-- Extraction of the local name: circleMember.name || circleMember.profile?.name || ''. -/
def extractName (m : CircleMember) : String :=
  jsOrElse m.name (jsOrElse (m.profile.bind CircleProfile.name) "")

/-- Extraction of the local email: circleMember.email || circleMember.profile?.email || ''. -/
def extractEmail (m : CircleMember) : String :=
  jsOrElse m.email (jsOrElse (m.profile.bind CircleProfile.email) "")

/-- Extraction of the local bio: circleMember.profile?.bio || ''. -/
def extractBio (m : CircleMember) : String :=
  jsOrElse (m.profile.bind CircleProfile.bio) ""

/-- Extraction: circleMember.profile?.profilePictureUrl || circleMember.profile?.photoUrl || ''. -/
def extractPictureUrl (m : CircleMember) : String :=
  jsOrElse (m.profile.bind CircleProfile.profilePictureUrl)
    (jsOrElse (m.profile.bind CircleProfile.photoUrl) "")

/-- The skip condition of the member loop: !circleUserId || !name || !email. -/
def skipMember (m : CircleMember) : Bool :=
  !(jsTruthy m.id) || extractName m == "" || extractEmail m == ""

/-- A member passes validation exactly when the skip condition is false. -/
def essentialPresent (m : CircleMember) : Bool :=
  !(skipMember m)

/-- A JSON field value appearing in a Webflow payload: a string, a number,
null, undefined, or the image object { url: ... }. -/
inductive FieldVal where
  | fvStr : String → FieldVal
  | fvNum : Int → FieldVal
  | fvNull : FieldVal
  | fvUndef : FieldVal
  | fvImg : String → FieldVal
deriving DecidableEq

/-- Embedding a raw JS value as a JSON field value. -/
def jsValToField : JsVal → FieldVal
  | .vUndef => .fvUndef
  | .vStr s => .fvStr s
  | .vNum n => .fvNum n

/-- The fields object of a Webflow payload, as an ordered key/value list
mirroring the JS object literal. -/
abbrev WebflowFields := List (String × FieldVal)

/-- The updatePayload object literal of the source (fields sent on update). -/
def updatePayload (circleUserId : JsVal)
    (name email bioText profilePictureUrl slug : String) : WebflowFields :=
  [("name", .fvStr name),
   ("email", .fvStr email),
   ("bio", .fvStr bioText),
   ("profilePicture", if profilePictureUrl != "" then .fvImg profilePictureUrl else .fvNull),
   ("circleUserId", jsValToField circleUserId),
   ("slug", .fvStr slug)]

/-- The createPayload object literal of the source (fields sent on create);
textually identical to the update payload. -/
def createPayload (circleUserId : JsVal)
    (name email bioText profilePictureUrl slug : String) : WebflowFields :=
  [("name", .fvStr name),
   ("email", .fvStr email),
   ("bio", .fvStr bioText),
   ("profilePicture", if profilePictureUrl != "" then .fvImg profilePictureUrl else .fvNull),
   ("circleUserId", jsValToField circleUserId),
   ("slug", .fvStr slug)]

/-- An item returned by the Webflow collection search. -/
structure WebflowItem where
  id : String
deriving DecidableEq

/-- A request issued to the Webflow API: the collection search by
circleUserId (with the interpolated id string), an item creation (POST), or
an item update (PUT) targeting an item id. -/
inductive WebflowRequest where
  | searchItems : String → WebflowRequest
  | createItem : WebflowFields → WebflowRequest
  | updateItem : String → WebflowFields → WebflowRequest
deriving DecidableEq

/-- An observable step of the member loop: a destination request or the
fixed setTimeout pause (milliseconds). -/
inductive SyncEvent where
  | destRequest : WebflowRequest → SyncEvent
  | delayMs : Nat → SyncEvent
deriving DecidableEq

/-- Outcome of the Webflow search call: a 2xx response whose data optionally
carries an items array, a 404 error (treated as not found), or any other
error. -/
inductive SearchOutcome where
  | success : Option (List WebflowItem) → SearchOutcome
  | notFound : SearchOutcome
  | failure : SearchOutcome
deriving DecidableEq

/-- The items list the code sees: searchResponse && searchResponse.data &&
searchResponse.data.items evaluates to the array only for a 2xx response
carrying one; in every other case the member is treated as absent. -/
def searchItemsOf : SearchOutcome → List WebflowItem
  | .success (some items) => items
  | _ => []

/-- Body of the member loop after the locals are extracted: validation,
search, then create-or-update and the 200 ms pause. The continue statements
of the source (skip and non-404 search error) bypass the pause. -/
def processExtracted (circleUserId : JsVal)
    (name email bioText profilePictureUrl : String)
    (outcome : SearchOutcome) : List SyncEvent :=
  if !(jsTruthy circleUserId) || name == "" || email == "" then
    []
  else
    let slug := jsToString circleUserId
    let searchEvent := SyncEvent.destRequest (.searchItems (jsToString circleUserId))
    match outcome with
    | .failure => [searchEvent]
    | out =>
      match searchItemsOf out with
      | item :: _ =>
        [searchEvent,
         .destRequest (.updateItem item.id
           (updatePayload circleUserId name email bioText profilePictureUrl slug)),
         .delayMs 200]
      | [] =>
        [searchEvent,
         .destRequest (.createItem
           (createPayload circleUserId name email bioText profilePictureUrl slug)),
         .delayMs 200]

/-- One iteration of the member loop on a Circle member, given the outcome
the Webflow search would produce for it. -/
def processMember (m : CircleMember) (outcome : SearchOutcome) : List SyncEvent :=
  processExtracted m.id (extractName m) (extractEmail m) (extractBio m)
    (extractPictureUrl m) outcome

/-- The string key a member is looked up under: String of its id. -/
def memberKey (m : CircleMember) : String :=
  jsToString m.id

/-- The full field mapping the loop sends for a member (both payload
literals coincide). -/
def memberPayload (m : CircleMember) : WebflowFields :=
  updatePayload m.id (extractName m) (extractEmail m) (extractBio m)
    (extractPictureUrl m) (jsToString m.id)

/-- One page response from the Circle members endpoint: the optional members
array and the optional continuation cursor. -/
structure CirclePage where
  members : Option (List CircleMember)
  nextCursor : Option String
deriving DecidableEq

/-- Result of one page fetch: a page, or a thrown axios error (transport
failure or non-2xx status). -/
inductive CircleFetchResult where
  | page : CirclePage → CircleFetchResult
  | failure : CircleFetchResult
deriving DecidableEq

/-- Truthiness of an optionally present string (cursor or configuration
value): present and nonempty. -/
def optStrTruthy : Option String → Bool
  | some s => s != ""
  | none => false

/-- Outcome of the fetch stage: a fatal abort (outer catch) or the
accumulated member list; both record the page requests that were issued,
each as the cursor parameter included in the URL (none on the first
request). -/
inductive FetchOutcome where
  | fatal : List (Option String) → FetchOutcome
  | fetched : List CircleMember → List (Option String) → FetchOutcome
deriving DecidableEq

/-- The requests issued during the fetch stage. -/
def fetchRequests : FetchOutcome → List (Option String)
  | .fatal reqs => reqs
  | .fetched _ reqs => reqs

/-- The members accumulated by the fetch stage (empty on abort). -/
def fetchedMembers : FetchOutcome → List CircleMember
  | .fatal _ => []
  | .fetched ms _ => ms

/-- The do/while pagination loop: issue a request (with the cursor when
truthy), abort on failure, stop when the page has no members array, append
the page and continue while nextCursor is truthy. The successive responses
of the source are the list argument. -/
def fetchPages (responses : List CircleFetchResult)
    (acc : List CircleMember) (cursor : Option String) : FetchOutcome :=
  let request := if optStrTruthy cursor then cursor else none
  match responses with
  | [] => .fatal [request]
  | resp :: rest =>
    match resp with
    | .failure => .fatal [request]
    | .page p =>
      match p.members with
      | none => .fetched acc [request]
      | some pageMembers =>
        let acc2 := acc ++ pageMembers
        if optStrTruthy p.nextCursor then
          match fetchPages rest acc2 p.nextCursor with
          | .fatal reqs => .fatal (request :: reqs)
          | .fetched ms reqs => .fetched ms (request :: reqs)
        else
          .fetched acc2 [request]

/-- The four environment values the function requires. -/
structure SyncConfig where
  circleApiToken : Option String
  webflowApiToken : Option String
  webflowSiteId : Option String
  webflowCollectionId : Option String
deriving DecidableEq

/-- The guard !CIRCLE_API_TOKEN || !WEBFLOW_API_TOKEN || !WEBFLOW_SITE_ID ||
!WEBFLOW_COLLECTION_ID, negated: all four values are truthy. -/
def configPresent (c : SyncConfig) : Bool :=
  optStrTruthy c.circleApiToken && optStrTruthy c.webflowApiToken &&
    optStrTruthy c.webflowSiteId && optStrTruthy c.webflowCollectionId

/-- Result of a whole run: aborted on missing configuration (before any
network call), aborted by the outer catch during fetch, or completed with
the source requests and the destination event trace. -/
inductive RunResult where
  | missingConfig : RunResult
  | fetchAborted : List (Option String) → RunResult
  | completed : List (Option String) → List SyncEvent → RunResult
deriving DecidableEq

/-- Destination events of a run: none unless the run reached the member loop. -/
def destEvents : RunResult → List SyncEvent
  | .completed _ events => events
  | _ => []

/-- Source page requests of a run: none when configuration was missing. -/
def sourceRequests : RunResult → List (Option String)
  | .missingConfig => []
  | .fetchAborted reqs => reqs
  | .completed reqs _ => reqs

/-- The whole syncCircleMembers run: configuration check, paginated fetch,
early return on an empty member list, then the member loop, whose search
outcomes are supplied by the lookup environment. -/
def syncCircleMembers (config : SyncConfig) (responses : List CircleFetchResult)
    (lookup : CircleMember → SearchOutcome) : RunResult :=
  if !(configPresent config) then .missingConfig
  else
    match fetchPages responses [] none with
    | .fatal reqs => .fetchAborted reqs
    | .fetched circleMembers reqs =>
      if circleMembers.length == 0 then .completed reqs []
      else .completed reqs (circleMembers.flatMap (fun m => processMember m (lookup m)))

/-- Modelled from the claim: the destination CMS is outside the repository;
this is a faithful store that records creates and updates and answers the
lookup filter by comparing the string form of each stored circleUserId
field with the filter value. A record is an opaque item id paired with the
stored fields. -/
structure DestState where
  records : List (String × WebflowFields)
  nextId : Nat
deriving DecidableEq

/-- The string the destination matches a stored fields object under: the
string form of its circleUserId field. -/
def payloadKey (fields : WebflowFields) : String :=
  match fields.lookup "circleUserId" with
  | some (.fvStr s) => s
  | some (.fvNum n) => toString n
  | _ => ""

/-- Modelled from the claim: opaque item ids assigned by the destination on
creation (any injective scheme). -/
def freshItemId (n : Nat) : String :=
  String.mk (List.replicate n 'x')

/-- Modelled from the claim: the destination answers the search filter with
the matching items in storage order. -/
def destLookup (st : DestState) (k : String) : List WebflowItem :=
  (st.records.filter (fun r => payloadKey r.2 == k)).map (fun r => ⟨r.1⟩)

/-- Modelled from the claim: the destination applies a create by appending a
fresh record and an update by overwriting the fields of the targeted item. -/
def applyRequest (st : DestState) : WebflowRequest → DestState
  | .searchItems _ => st
  | .createItem fields => ⟨st.records ++ [(freshItemId st.nextId, fields)], st.nextId + 1⟩
  | .updateItem itemId fields =>
      ⟨st.records.map (fun r => if r.1 == itemId then (r.1, fields) else r), st.nextId⟩

/-- Delays do not change the destination. -/
def applyEvent (st : DestState) : SyncEvent → DestState
  | .destRequest r => applyRequest st r
  | .delayMs _ => st

/-- One member-loop iteration run against the live destination: the search
outcome is the destination answering the lookup, and the issued requests
are applied to it. -/
def stepMember (st : DestState) (m : CircleMember) : DestState :=
  List.foldl applyEvent st
    (processMember m (.success (some (destLookup st (jsToString m.id)))))

/-- The reconciler loop over a snapshot, run against the live destination. -/
def runReconciler (st : DestState) (ms : List CircleMember) : DestState :=
  List.foldl stepMember st ms

/-- The destination before the first run. -/
def emptyDest : DestState := ⟨[], 0⟩

/-- The payload of the last valid member of the snapshot whose key is k, if
any: what the destination record for k must hold after a run. -/
def lastPayloadFor (ms : List CircleMember) (k : String) : Option WebflowFields :=
  List.foldr
    (fun m acc =>
      match acc with
      | some p => some p
      | none =>
        if essentialPresent m && (memberKey m == k) then some (memberPayload m) else none)
    none ms

/-- The keys of the records currently stored. -/
def keysList (st : DestState) : List String :=
  st.records.map (fun r => payloadKey r.2)

/-- Recognizer for the pause event, used to state the rate-limit claims. -/
def isDelay : SyncEvent → Bool
  | .delayMs _ => true
  | .destRequest _ => false

example : jsTruthy (.vNum 0) = false := by decide

example : processMember { id := .vStr "7", name := some "A", email := some "B" }
    (.success (some [])) =
  [.destRequest (.searchItems "7"),
   .destRequest (.createItem
     [("name", .fvStr "A"), ("email", .fvStr "B"), ("bio", .fvStr ""),
      ("profilePicture", .fvNull), ("circleUserId", .fvStr "7"), ("slug", .fvStr "7")]),
   .delayMs 200] := by decide

theorem essentialPresent_iff {m : CircleMember} :
    essentialPresent m = true ↔
      (jsTruthy m.id = true ∧ extractName m ≠ "" ∧ extractEmail m ≠ "") := by
  simp [essentialPresent, skipMember, and_assoc]

theorem guard_false_of_valid {m : CircleMember} (h : essentialPresent m = true) :
    (!(jsTruthy m.id) || extractName m == "" || extractEmail m == "") = false := by
  have h2 := essentialPresent_iff.mp h
  simp [h2.1, h2.2.1, h2.2.2]

theorem guard_true_of_invalid {m : CircleMember} (h : essentialPresent m = false) :
    (!(jsTruthy m.id) || extractName m == "" || extractEmail m == "") = true := by
  cases hb : (!(jsTruthy m.id) || extractName m == "" || extractEmail m == "") with
  | true => rfl
  | false =>
    exfalso
    have ht : essentialPresent m = true := by
      unfold essentialPresent skipMember
      rw [hb]
      rfl
    rw [ht] at h
    exact Bool.true_eq_false.mp h

theorem processMember_skip {m : CircleMember} (h : essentialPresent m = false)
    (outcome : SearchOutcome) : processMember m outcome = [] := by
  unfold processMember processExtracted
  rw [guard_true_of_invalid h]
  rfl

theorem processMember_searchFailure {m : CircleMember} (h : essentialPresent m = true) :
    processMember m .failure = [.destRequest (.searchItems (memberKey m))] := by
  unfold processMember processExtracted
  rw [guard_false_of_valid h]
  rfl

theorem processMember_found {m : CircleMember} (h : essentialPresent m = true)
    (item : WebflowItem) (rest : List WebflowItem) :
    processMember m (.success (some (item :: rest))) =
      [.destRequest (.searchItems (memberKey m)),
       .destRequest (.updateItem item.id (memberPayload m)),
       .delayMs 200] := by
  unfold processMember processExtracted
  rw [guard_false_of_valid h]
  rfl

theorem processMember_emptyItems {m : CircleMember} (h : essentialPresent m = true) :
    processMember m (.success (some [])) =
      [.destRequest (.searchItems (memberKey m)),
       .destRequest (.createItem (memberPayload m)),
       .delayMs 200] := by
  unfold processMember processExtracted
  rw [guard_false_of_valid h]
  rfl

theorem processMember_noItemsField {m : CircleMember} (h : essentialPresent m = true) :
    processMember m (.success none) =
      [.destRequest (.searchItems (memberKey m)),
       .destRequest (.createItem (memberPayload m)),
       .delayMs 200] := by
  unfold processMember processExtracted
  rw [guard_false_of_valid h]
  rfl

theorem processMember_notFound {m : CircleMember} (h : essentialPresent m = true) :
    processMember m .notFound =
      [.destRequest (.searchItems (memberKey m)),
       .destRequest (.createItem (memberPayload m)),
       .delayMs 200] := by
  unfold processMember processExtracted
  rw [guard_false_of_valid h]
  rfl

/-- A lookup outcome carrying zero matching items: an items array that is
empty, a 2xx response without an items array, or the explicit 404. -/
def lookupEmpty (outcome : SearchOutcome) : Prop :=
  outcome = .success (some []) ∨ outcome = .success none ∨ outcome = .notFound

/-- C2 (confirmed): a source member missing its external identifier, its
display name (at both levels) or its email address (at both levels) is
skipped entirely — the loop issues no lookup, create or update for it. -/
theorem skip_member_missing_essentials (m : CircleMember) (outcome : SearchOutcome)
    (h : m.id = JsVal.vUndef ∨
      (m.name = none ∧ m.profile.bind CircleProfile.name = none) ∨
      (m.email = none ∧ m.profile.bind CircleProfile.email = none)) :
    processMember m outcome = [] := by
  refine processMember_skip ?_ outcome
  rcases h with h | ⟨h1, h2⟩ | ⟨h1, h2⟩
  · simp [essentialPresent, skipMember, jsTruthy, h]
  · simp [essentialPresent, skipMember, extractName, jsOrElse, h1, h2]
  · simp [essentialPresent, skipMember, extractEmail, jsOrElse, h1, h2]

/-- Witness for C2: a member with an id and a name but no email anywhere
produces no destination traffic. -/
theorem skip_member_missing_essentials_witness :
    processMember { id := JsVal.vStr "42", name := some "Ann" } SearchOutcome.notFound = [] :=
  skip_member_missing_essentials _ _ (Or.inr (Or.inr (by decide)))

/-- C3 (confirmed): for a valid member, an empty lookup result (empty items
array, missing items array, or 404) leads to exactly one create and no
update, while a lookup returning exactly one item of id x leads to exactly
one update targeting x and no create. -/
theorem create_xor_update (m : CircleMember) (h : essentialPresent m = true) :
    (∀ outcome, lookupEmpty outcome →
       processMember m outcome =
         [.destRequest (.searchItems (memberKey m)),
          .destRequest (.createItem (memberPayload m)),
          .delayMs 200]) ∧
    (∀ x : String,
       processMember m (.success (some [⟨x⟩])) =
         [.destRequest (.searchItems (memberKey m)),
          .destRequest (.updateItem x (memberPayload m)),
          .delayMs 200]) := by
  constructor
  · intro outcome ho
    rcases ho with rfl | rfl | rfl
    · exact processMember_emptyItems h
    · exact processMember_noItemsField h
    · exact processMember_notFound h
  · intro x
    exact processMember_found h ⟨x⟩ []

/-- Concrete member used by scenario witnesses. -/
def scenarioMember : CircleMember :=
  { id := .vStr "7", name := some "Greta", email := some "g@example.com" }

/-- Witness for C3 at a concrete member: 404 yields the create trace, a
one-item lookup yields the update trace targeting that item. -/
theorem create_xor_update_witness :
    processMember scenarioMember SearchOutcome.notFound =
      [.destRequest (.searchItems "7"),
       .destRequest (.createItem (memberPayload scenarioMember)),
       .delayMs 200] ∧
    processMember scenarioMember (.success (some [⟨"w1"⟩])) =
      [.destRequest (.searchItems "7"),
       .destRequest (.updateItem "w1" (memberPayload scenarioMember)),
       .delayMs 200] :=
  ⟨(create_xor_update scenarioMember (by decide)).1 _ (Or.inr (Or.inr rfl)),
   (create_xor_update scenarioMember (by decide)).2 "w1"⟩

/-- C6 (confirmed): the slug field sent is the string conversion of the
member's id, the circleUserId field carries the id, and an empty lookup
leads to a create carrying exactly this payload. -/
theorem slug_is_string_of_id (m : CircleMember) (h : essentialPresent m = true) :
    (memberPayload m).lookup "slug" = some (.fvStr (jsToString m.id)) ∧
    (memberPayload m).lookup "circleUserId" = some (jsValToField m.id) ∧
    processMember m (.success (some [])) =
      [.destRequest (.searchItems (memberKey m)),
       .destRequest (.createItem (memberPayload m)),
       .delayMs 200] := by
  refine ⟨?_, ?_, processMember_emptyItems h⟩
  · rfl
  · rfl

/-- Witness for C6, the spec scenario: lookup for id "7" returns an empty
item list, the create payload has circleUserId "7" and slug "7". -/
theorem slug_is_string_of_id_witness :
    (memberPayload scenarioMember).lookup "circleUserId" = some (FieldVal.fvStr "7") ∧
    (memberPayload scenarioMember).lookup "slug" = some (FieldVal.fvStr "7") ∧
    processMember scenarioMember (SearchOutcome.success (some [])) =
      [.destRequest (.searchItems "7"),
       .destRequest (.createItem (memberPayload scenarioMember)),
       .delayMs 200] := by
  have h := slug_is_string_of_id scenarioMember (by decide)
  exact ⟨h.2.1, h.1, h.2.2⟩

/-- C9 (confirmed): when the lookup returns two or more items, the loop
issues exactly one update, targeting the id of the first item, and nothing
else — no request for the remaining matches, no delete, no merge. -/
theorem multiple_matches_update_first (m : CircleMember) (h : essentialPresent m = true)
    (x y : WebflowItem) (rest : List WebflowItem) :
    processMember m (.success (some (x :: y :: rest))) =
      [.destRequest (.searchItems (memberKey m)),
       .destRequest (.updateItem x.id (memberPayload m)),
       .delayMs 200] :=
  processMember_found h x (y :: rest)

/-- Witness for C9 at a concrete member with two matching items. -/
theorem multiple_matches_update_first_witness :
    processMember scenarioMember (.success (some [⟨"w1"⟩, ⟨"w2"⟩])) =
      [.destRequest (.searchItems "7"),
       .destRequest (.updateItem "w1" (memberPayload scenarioMember)),
       .delayMs 200] :=
  multiple_matches_update_first scenarioMember (by decide) ⟨"w1"⟩ ⟨"w2"⟩ []

/-- A member whose top-level email is the empty string but whose profile
carries an email: the code falls back to the profile value and does not
skip the member. -/
def emptyEmailMember : CircleMember :=
  { id := .vStr "3", name := some "Nora", email := some "",
    profile := some { email := some "backup@example.com" } }

/-- C10 counterexample: a member whose email is present but equal to the
empty string is not always skipped — with a profile-level email the loop
issues requests for it, contradicting the claim as stated. -/
theorem truthy_validation_counterexample :
    emptyEmailMember.email = some "" ∧
    processMember emptyEmailMember (SearchOutcome.success (some [])) ≠ [] := by decide

/-- C10 (amended): validation tests truthiness — an id equal to the number 0
is treated as missing and the member is skipped; a top-level name or email
equal to the empty string is treated exactly as if absent, falling back to
the profile-level field; the member is skipped with no destination request
exactly when the extracted name or email remains empty. -/
theorem truthy_validation_amended :
    (∀ (m : CircleMember) (outcome : SearchOutcome),
       m.id = JsVal.vNum 0 → processMember m outcome = []) ∧
    (∀ (m : CircleMember) (outcome : SearchOutcome),
       processMember { m with name := some "" } outcome =
         processMember { m with name := none } outcome) ∧
    (∀ (m : CircleMember) (outcome : SearchOutcome),
       processMember { m with email := some "" } outcome =
         processMember { m with email := none } outcome) ∧
    (∀ (m : CircleMember) (outcome : SearchOutcome),
       extractName m = "" → processMember m outcome = []) ∧
    (∀ (m : CircleMember) (outcome : SearchOutcome),
       extractEmail m = "" → processMember m outcome = []) := by
  refine ⟨?_, ?_, ?_, ?_, ?_⟩
  · intro m outcome h
    refine processMember_skip ?_ outcome
    simp [essentialPresent, skipMember, jsTruthy, h]
  · intro m outcome
    rfl
  · intro m outcome
    rfl
  · intro m outcome h
    refine processMember_skip ?_ outcome
    simp [essentialPresent, skipMember, h]
  · intro m outcome h
    refine processMember_skip ?_ outcome
    simp [essentialPresent, skipMember, h]

/-- Witness for C10 amended: a member with the numeric id 0 is skipped. -/
theorem truthy_validation_amended_witness :
    processMember { id := JsVal.vNum 0, name := some "Zed", email := some "z@example.com" }
      SearchOutcome.notFound = [] :=
  truthy_validation_amended.1 _ _ rfl

/-- A valid member on which the lookup errors (non-404). -/
def lookupErrorMember : CircleMember :=
  { id := .vStr "5", name := some "Eve", email := some "eve@example.com" }

/-- C8 counterexample: a record whose processing ends in a handled lookup
error gets no 200 ms pause — the trace for it contains no delay event,
contradicting the claim that every processed record is followed by the
pause. -/
theorem delay_after_each_record_counterexample :
    essentialPresent lookupErrorMember = true ∧
    (processMember lookupErrorMember SearchOutcome.failure).countP isDelay = 0 := by decide

/-- C8 (amended): the 200 ms pause follows each record that reaches the
create-or-update stage (whatever the write outcome), but records skipped
for missing data and records abandoned on a non-404 lookup error continue
to the next member with no pause. -/
theorem delay_after_write_stage_amended :
    (∀ (m : CircleMember) (outcome : SearchOutcome),
       essentialPresent m = true → outcome ≠ SearchOutcome.failure →
       (processMember m outcome).getLast? = some (SyncEvent.delayMs 200)) ∧
    (∀ m : CircleMember, essentialPresent m = true →
       (processMember m SearchOutcome.failure).countP isDelay = 0) ∧
    (∀ (m : CircleMember) (outcome : SearchOutcome),
       essentialPresent m = false → processMember m outcome = []) := by
  refine ⟨?_, ?_, ?_⟩
  · intro m outcome h hne
    cases outcome with
    | failure => exact absurd rfl hne
    | notFound => rw [processMember_notFound h]; rfl
    | success items =>
      cases items with
      | none => rw [processMember_noItemsField h]; rfl
      | some l =>
        cases l with
        | nil => rw [processMember_emptyItems h]; rfl
        | cons a t => rw [processMember_found h a t]; rfl
  · intro m h
    rw [processMember_searchFailure h]
    rfl
  · intro m outcome h
    exact processMember_skip h outcome

/-- Witness for C8 amended: a successful create ends with the pause. -/
theorem delay_after_write_stage_witness :
    (processMember lookupErrorMember SearchOutcome.notFound).getLast? =
      some (SyncEvent.delayMs 200) :=
  delay_after_write_stage_amended.1 lookupErrorMember SearchOutcome.notFound
    (by decide) (by decide)

/-- A valid member whose profile carries every optional field the code
reads. -/
def fullProfileMember : CircleMember :=
  { id := .vStr "7", name := some "Greta", email := some "g@example.com",
    profile := some { bio := some "Birder", profilePictureUrl := some "pic7" } }

/-- The fields object carried by a create or update event, if any. -/
def writeFieldsOf : SyncEvent → Option WebflowFields
  | .destRequest (.createItem fields) => some fields
  | .destRequest (.updateItem _ fields) => some fields
  | _ => none

/-- C1 counterexample: the payload actually sent on a write carries only
name, email, bio, profilePicture, circleUserId and slug — headline, website,
location, signup timestamp and the social links are absent from it, so the
claimed full optional-field mapping is not sent. -/
theorem full_field_mapping_counterexample :
    essentialPresent fullProfileMember = true ∧
    processMember fullProfileMember (SearchOutcome.success (some [])) =
      [.destRequest (.searchItems "7"),
       .destRequest (.createItem (memberPayload fullProfileMember)),
       .delayMs 200] ∧
    (memberPayload fullProfileMember).lookup "headline" = none ∧
    (memberPayload fullProfileMember).lookup "website" = none ∧
    (memberPayload fullProfileMember).lookup "location" = none ∧
    (memberPayload fullProfileMember).lookup "signupDate" = none ∧
    (memberPayload fullProfileMember).lookup "facebook" = none ∧
    (memberPayload fullProfileMember).lookup "linkedin" = none ∧
    (memberPayload fullProfileMember).lookup "instagram" = none := by decide

/-- C1 (amended): the create payload and the update payload are the same
full object holding exactly name, email, bio, profilePicture, circleUserId
and slug; every write event carries this full mapping (no partial or merge
write), but the remaining optional fields are not part of it. -/
theorem full_payload_on_every_write :
    (∀ (cuid : JsVal) (n e b p s : String),
       createPayload cuid n e b p s = updatePayload cuid n e b p s) ∧
    (∀ (cuid : JsVal) (n e b p s : String),
       (updatePayload cuid n e b p s).map Prod.fst =
         ["name", "email", "bio", "profilePicture", "circleUserId", "slug"]) ∧
    (∀ (m : CircleMember) (outcome : SearchOutcome) (ev : SyncEvent),
       ev ∈ processMember m outcome →
       writeFieldsOf ev = none ∨ writeFieldsOf ev = some (memberPayload m)) := by
  refine ⟨fun _ _ _ _ _ _ => rfl, fun _ _ _ _ _ _ => rfl, ?_⟩
  intro m outcome ev hev
  by_cases h : essentialPresent m = true
  · cases outcome with
    | failure =>
      rw [processMember_searchFailure h] at hev
      simp only [List.mem_singleton] at hev
      subst hev
      exact Or.inl rfl
    | notFound =>
      rw [processMember_notFound h] at hev
      simp only [List.mem_cons, List.not_mem_nil, or_false] at hev
      rcases hev with rfl | rfl | rfl
      · exact Or.inl rfl
      · exact Or.inr rfl
      · exact Or.inl rfl
    | success items =>
      cases items with
      | none =>
        rw [processMember_noItemsField h] at hev
        simp only [List.mem_cons, List.not_mem_nil, or_false] at hev
        rcases hev with rfl | rfl | rfl
        · exact Or.inl rfl
        · exact Or.inr rfl
        · exact Or.inl rfl
      | some l =>
        cases l with
        | nil =>
          rw [processMember_emptyItems h] at hev
          simp only [List.mem_cons, List.not_mem_nil, or_false] at hev
          rcases hev with rfl | rfl | rfl
          · exact Or.inl rfl
          · exact Or.inr rfl
          · exact Or.inl rfl
        | cons a t =>
          rw [processMember_found h a t] at hev
          simp only [List.mem_cons, List.not_mem_nil, or_false] at hev
          rcases hev with rfl | rfl | rfl
          · exact Or.inl rfl
          · exact Or.inr rfl
          · exact Or.inl rfl
  · rw [processMember_skip (Bool.not_eq_true _ ▸ Bool.of_not_eq_true h) outcome] at hev
    exact absurd hev (List.not_mem_nil ev)

/-- Witness for C1 amended: at the concrete member, the two payload
literals coincide and the create event carries the full mapping. -/
theorem full_payload_on_every_write_witness :
    createPayload (JsVal.vStr "7") "Greta" "g@example.com" "Birder" "pic7" "7" =
      updatePayload (JsVal.vStr "7") "Greta" "g@example.com" "Birder" "pic7" "7" ∧
    (writeFieldsOf (SyncEvent.destRequest (.createItem (memberPayload fullProfileMember))) = none ∨
     writeFieldsOf (SyncEvent.destRequest (.createItem (memberPayload fullProfileMember))) =
       some (memberPayload fullProfileMember)) :=
  ⟨full_payload_on_every_write.1 (JsVal.vStr "7") "Greta" "g@example.com" "Birder" "pic7" "7",
   full_payload_on_every_write.2.2 fullProfileMember (SearchOutcome.success (some []))
     (SyncEvent.destRequest (.createItem (memberPayload fullProfileMember))) (by decide)⟩

/-- A member used to populate scenario pages. -/
def sampleMember : CircleMember :=
  { id := .vStr "s1", name := some "Sam", email := some "sam@example.com" }

/-- C5 (confirmed): the loop stops after consuming a page without a truthy
cursor, stops (without consuming records) on a page lacking the members
array, issues a further request exactly when the cursor is truthy, every
fetch issues at least one request, and the two-page scenario yields 105
members after exactly the two requests. -/
theorem fetch_cursor_loop :
    (∀ (ms : List CircleMember) (next : Option String) (rest : List CircleFetchResult)
       (acc : List CircleMember) (cursor : Option String),
       optStrTruthy next = false →
       fetchPages (CircleFetchResult.page ⟨some ms, next⟩ :: rest) acc cursor =
         .fetched (acc ++ ms) [if optStrTruthy cursor then cursor else none]) ∧
    (∀ (next : Option String) (rest : List CircleFetchResult)
       (acc : List CircleMember) (cursor : Option String),
       fetchPages (CircleFetchResult.page ⟨none, next⟩ :: rest) acc cursor =
         .fetched acc [if optStrTruthy cursor then cursor else none]) ∧
    (∀ (ms : List CircleMember) (next : Option String) (rest : List CircleFetchResult)
       (acc : List CircleMember) (cursor : Option String),
       optStrTruthy next = true →
       fetchRequests (fetchPages (CircleFetchResult.page ⟨some ms, next⟩ :: rest) acc cursor) =
         (if optStrTruthy cursor then cursor else none) ::
           fetchRequests (fetchPages rest (acc ++ ms) next)) ∧
    (∀ (responses : List CircleFetchResult) (acc : List CircleMember) (cursor : Option String),
       1 ≤ (fetchRequests (fetchPages responses acc cursor)).length) ∧
    (fetchPages
        [CircleFetchResult.page ⟨some (List.replicate 100 sampleMember), some "abc"⟩,
         CircleFetchResult.page ⟨some (List.replicate 5 sampleMember), none⟩] [] none =
       .fetched (List.replicate 100 sampleMember ++ List.replicate 5 sampleMember)
         [none, some "abc"] ∧
     (List.replicate 100 sampleMember ++ List.replicate 5 sampleMember).length = 105) := by
  refine ⟨?_, ?_, ?_, ?_, ?_, ?_⟩
  · intro ms next rest acc cursor h
    simp [fetchPages, h]
  · intro next rest acc cursor
    simp [fetchPages]
  · intro ms next rest acc cursor h
    cases hr : fetchPages rest (acc ++ ms) next with
    | fatal reqs => simp [fetchPages, h, hr, fetchRequests]
    | fetched ms2 reqs => simp [fetchPages, h, hr, fetchRequests]
  · intro responses acc cursor
    cases responses with
    | nil => simp [fetchPages, fetchRequests]
    | cons resp rest =>
      cases resp with
      | failure => simp [fetchPages, fetchRequests]
      | page p =>
        cases hm : p.members with
        | none => simp [fetchPages, hm, fetchRequests]
        | some pm =>
          by_cases hc : optStrTruthy p.nextCursor = true
          · cases hr : fetchPages rest (acc ++ pm) p.nextCursor with
            | fatal reqs => simp [fetchPages, hm, hc, hr, fetchRequests]
            | fetched ms2 reqs => simp [fetchPages, hm, hc, hr, fetchRequests]
          · simp [fetchPages, hm, Bool.of_not_eq_true hc, fetchRequests]
  · rfl
  · rfl

/-- Witness for C5: a single page with no cursor ends the loop after one
request with that page's records. -/
theorem fetch_cursor_loop_witness :
    fetchPages [CircleFetchResult.page ⟨some [sampleMember], none⟩] [] none =
      .fetched ([] ++ [sampleMember]) [if optStrTruthy none then none else none] :=
  fetch_cursor_loop.1 [sampleMember] none [] [] none rfl

/-- C4 (confirmed): missing configuration aborts the run before any network
request, source or destination; a fatal fetch outcome aborts the run with no
destination request; a failing page response is fatal, and a failure later
in the pagination is fatal for the whole fetch. -/
theorem fatal_abort_semantics :
    (∀ (config : SyncConfig) (responses : List CircleFetchResult)
       (lookup : CircleMember → SearchOutcome),
       configPresent config = false →
       syncCircleMembers config responses lookup = RunResult.missingConfig ∧
       sourceRequests (syncCircleMembers config responses lookup) = [] ∧
       destEvents (syncCircleMembers config responses lookup) = []) ∧
    (∀ (config : SyncConfig) (responses : List CircleFetchResult)
       (lookup : CircleMember → SearchOutcome) (reqs : List (Option String)),
       configPresent config = true →
       fetchPages responses [] none = FetchOutcome.fatal reqs →
       syncCircleMembers config responses lookup = RunResult.fetchAborted reqs ∧
       destEvents (syncCircleMembers config responses lookup) = []) ∧
    (∀ (rest : List CircleFetchResult) (acc : List CircleMember) (cursor : Option String),
       fetchPages (CircleFetchResult.failure :: rest) acc cursor =
         FetchOutcome.fatal [if optStrTruthy cursor then cursor else none]) ∧
    (∀ (ms : List CircleMember) (next : Option String) (rest : List CircleFetchResult)
       (acc : List CircleMember) (cursor : Option String) (reqs : List (Option String)),
       optStrTruthy next = true →
       fetchPages rest (acc ++ ms) next = FetchOutcome.fatal reqs →
       fetchPages (CircleFetchResult.page ⟨some ms, next⟩ :: rest) acc cursor =
         FetchOutcome.fatal ((if optStrTruthy cursor then cursor else none) :: reqs)) := by
  refine ⟨?_, ?_, ?_, ?_⟩
  · intro config responses lookup h
    have hr : syncCircleMembers config responses lookup = RunResult.missingConfig := by
      simp [syncCircleMembers, h]
    exact ⟨hr, by rw [hr]; rfl, by rw [hr]; rfl⟩
  · intro config responses lookup reqs hc hf
    have hr : syncCircleMembers config responses lookup = RunResult.fetchAborted reqs := by
      simp [syncCircleMembers, hc, hf]
    exact ⟨hr, by rw [hr]; rfl⟩
  · intro rest acc cursor
    rfl
  · intro ms next rest acc cursor reqs hnext hfatal
    simp [fetchPages, hnext, hfatal]

/-- Witness for C4: an empty configuration aborts with no traffic at all. -/
theorem fatal_abort_semantics_witness :
    syncCircleMembers ⟨none, none, none, none⟩ [] (fun _ => SearchOutcome.notFound) =
      RunResult.missingConfig ∧
    sourceRequests (syncCircleMembers ⟨none, none, none, none⟩ []
      (fun _ => SearchOutcome.notFound)) = [] ∧
    destEvents (syncCircleMembers ⟨none, none, none, none⟩ []
      (fun _ => SearchOutcome.notFound)) = [] :=
  fatal_abort_semantics.1 ⟨none, none, none, none⟩ [] (fun _ => SearchOutcome.notFound) rfl

theorem payloadKey_updatePayload (v : JsVal) (h : jsTruthy v = true)
    (n e b p s : String) : payloadKey (updatePayload v n e b p s) = jsToString v := by
  cases v with
  | vUndef => exact absurd h (by decide)
  | vStr s2 => rfl
  | vNum n2 => rfl

theorem payloadKey_memberPayload {m : CircleMember} (h : jsTruthy m.id = true) :
    payloadKey (memberPayload m) = memberKey m :=
  payloadKey_updatePayload m.id h (extractName m) (extractEmail m) (extractBio m)
    (extractPictureUrl m) (jsToString m.id)

theorem freshItemId_inj (a b : Nat) (h : freshItemId a = freshItemId b) : a = b := by
  unfold freshItemId at h
  have h2 : List.replicate a 'x' = List.replicate b 'x' := congrArg String.data h
  have h3 := congrArg List.length h2
  simpa using h3

theorem map_eq_self_of_ptwise {α : Type} (l : List α) (f : α → α)
    (h : ∀ a ∈ l, f a = a) : l.map f = l := by
  induction l with
  | nil => rfl
  | cons a t ih =>
    simp only [List.map_cons]
    rw [h a (List.mem_cons_self a t), ih (fun x hx => h x (List.mem_cons_of_mem a hx))]

theorem filter_eq_nil_of_key_notMem {α : Type} (g : α → String) (t : List α) (k : String)
    (h : k ∉ t.map g) : t.filter (fun a => g a == k) = [] := by
  induction t with
  | nil => rfl
  | cons b t2 ih =>
    simp only [List.map_cons, List.mem_cons] at h
    push_neg at h
    have hb : (g b == k) = false := by
      simp [Ne.symm h.1]
    simp only [List.filter_cons, hb, Bool.false_eq_true, if_false]
    exact ih h.2

theorem length_filter_key_one {α : Type} (g : α → String) (l : List α) (k : String)
    (hnd : (l.map g).Nodup) (hk : k ∈ l.map g) :
    (l.filter (fun a => g a == k)).length = 1 := by
  induction l with
  | nil => simp at hk
  | cons a t ih =>
    simp only [List.map_cons, List.nodup_cons] at hnd
    by_cases hga : g a = k
    · have hnot : k ∉ t.map g := hga ▸ hnd.1
      have hfil : t.filter (fun x => g x == k) = [] := filter_eq_nil_of_key_notMem g t k hnot
      simp [List.filter_cons, hga, hfil]
    · have hk2 : k ∈ t.map g := by
        simp only [List.map_cons, List.mem_cons] at hk
        rcases hk with hk | hk
        · exact absurd hk.symm hga
        · exact hk
      have hb : (g a == k) = false := by simp [hga]
      simp only [List.filter_cons, hb, Bool.false_eq_true, if_false]
      exact ih hnd.2 hk2

/-- Invariant of the faithful destination: stored keys are pairwise
distinct, item ids are pairwise distinct, and every item id was assigned
from the counter. -/
structure DestInv (st : DestState) : Prop where
  keysNodup : (keysList st).Nodup
  idsNodup : (st.records.map Prod.fst).Nodup
  idsFresh : ∀ r ∈ st.records, ∃ j, j < st.nextId ∧ r.1 = freshItemId j

theorem destInv_empty : DestInv emptyDest := by
  refine ⟨?_, ?_, ?_⟩
  · simp [keysList, emptyDest]
  · simp [emptyDest]
  · intro r hr
    exact absurd hr (List.not_mem_nil r)

theorem stepMember_invalid {st : DestState} {m : CircleMember}
    (h : essentialPresent m = false) : stepMember st m = st := by
  unfold stepMember
  rw [processMember_skip h]
  rfl

theorem stepMember_create {st : DestState} {m : CircleMember}
    (h : essentialPresent m = true) (hl : destLookup st (memberKey m) = []) :
    stepMember st m =
      ⟨st.records ++ [(freshItemId st.nextId, memberPayload m)], st.nextId + 1⟩ := by
  unfold stepMember
  rw [show destLookup st (jsToString m.id) = [] from hl, processMember_emptyItems h]
  rfl

theorem stepMember_update {st : DestState} {m : CircleMember}
    (h : essentialPresent m = true) {item : WebflowItem} {restItems : List WebflowItem}
    (hl : destLookup st (memberKey m) = item :: restItems) :
    stepMember st m =
      ⟨st.records.map (fun r => if r.1 == item.id then (r.1, memberPayload m) else r),
       st.nextId⟩ := by
  unfold stepMember
  rw [show destLookup st (jsToString m.id) = item :: restItems from hl,
    processMember_found h item restItems]
  rfl

theorem destLookup_eq_nil_of_notMem {st : DestState} {k : String}
    (h : k ∉ keysList st) : destLookup st k = [] := by
  have h2 : k ∉ List.map (fun (r : String × WebflowFields) => payloadKey r.2) st.records := h
  unfold destLookup
  rw [filter_eq_nil_of_key_notMem (fun (r : String × WebflowFields) => payloadKey r.2)
    st.records k h2]
  rfl

theorem destLookup_mem_keys {st : DestState} {k : String} (hk : k ∈ keysList st) :
    ∃ w ∈ st.records, payloadKey w.2 = k ∧
      ∃ ws, st.records.filter (fun r => payloadKey r.2 == k) = w :: ws ∧
        destLookup st k = ⟨w.1⟩ :: ws.map (fun r => ⟨r.1⟩) := by
  cases hf : st.records.filter (fun r => payloadKey r.2 == k) with
  | nil =>
    exfalso
    obtain ⟨r, hr, hkey⟩ := List.mem_map.mp hk
    have hrf : r ∈ st.records.filter (fun r => payloadKey r.2 == k) :=
      List.mem_filter.mpr ⟨hr, by simp [hkey]⟩
    rw [hf] at hrf
    exact List.not_mem_nil r hrf
  | cons w ws =>
    have hwmem : w ∈ st.records.filter (fun r => payloadKey r.2 == k) := by
      rw [hf]
      exact List.mem_cons_self w ws
    obtain ⟨hw1, hw2⟩ := List.mem_filter.mp hwmem
    refine ⟨w, hw1, eq_of_beq hw2, ws, rfl, ?_⟩
    unfold destLookup
    rw [hf]
    rfl

theorem stepMember_update_keymap {st : DestState} {m : CircleMember} (hv : DestInv st)
    (h : essentialPresent m = true) (hk : memberKey m ∈ keysList st) :
    stepMember st m =
      ⟨st.records.map (fun r =>
          if payloadKey r.2 == memberKey m then (r.1, memberPayload m) else r),
       st.nextId⟩ := by
  obtain ⟨w, hwmem, hwkey, ws, hf, hdl⟩ := destLookup_mem_keys hk
  rw [stepMember_update h hdl]
  congr 1
  apply List.map_congr_left
  intro r hr
  have hknd : (st.records.map (fun r => payloadKey r.2)).Nodup := hv.keysNodup
  have hidnd : (st.records.map Prod.fst).Nodup := hv.idsNodup
  by_cases hkey : payloadKey r.2 = memberKey m
  · have hrw : r = w :=
      List.inj_on_of_nodup_map hknd hr hwmem (by rw [hkey, hwkey])
    simp [hrw, hwkey.symm ▸ hkey, hwkey]
  · have hne : r.1 ≠ w.1 := by
      intro he
      have hrw : r = w := List.inj_on_of_nodup_map hidnd hr hwmem he
      exact hkey (hrw ▸ hwkey)
    simp [hkey, hne]

theorem keysList_stepMember_create {st : DestState} {m : CircleMember}
    (h : essentialPresent m = true) (hl : destLookup st (memberKey m) = []) :
    keysList (stepMember st m) = keysList st ++ [memberKey m] := by
  rw [stepMember_create h hl]
  unfold keysList
  simp [payloadKey_memberPayload (essentialPresent_iff.mp h).1]

theorem keysList_stepMember_update {st : DestState} {m : CircleMember} (hv : DestInv st)
    (h : essentialPresent m = true) (hk : memberKey m ∈ keysList st) :
    keysList (stepMember st m) = keysList st := by
  rw [stepMember_update_keymap hv h hk]
  unfold keysList
  simp only [List.map_map]
  apply List.map_congr_left
  intro r hr
  by_cases hkey : payloadKey r.2 = memberKey m
  · simp [Function.comp, hkey, payloadKey_memberPayload (essentialPresent_iff.mp h).1]
  · simp [Function.comp, hkey]

theorem ids_stepMember_update {st : DestState} {m : CircleMember} (hv : DestInv st)
    (h : essentialPresent m = true) (hk : memberKey m ∈ keysList st) :
    (stepMember st m).records.map Prod.fst = st.records.map Prod.fst := by
  rw [stepMember_update_keymap hv h hk]
  simp only [List.map_map]
  apply List.map_congr_left
  intro r hr
  by_cases hkey : payloadKey r.2 = memberKey m
  · simp [Function.comp, hkey]
  · simp [Function.comp, hkey]

theorem destInv_step {st : DestState} {m : CircleMember} (hv : DestInv st) :
    DestInv (stepMember st m) := by
  by_cases h : essentialPresent m = true
  · by_cases hk : memberKey m ∈ keysList st
    · refine ⟨?_, ?_, ?_⟩
      · rw [keysList_stepMember_update hv h hk]
        exact hv.keysNodup
      · rw [ids_stepMember_update hv h hk]
        exact hv.idsNodup
      · rw [stepMember_update_keymap hv h hk]
        intro r hr
        obtain ⟨r0, hr0, hfr⟩ := List.mem_map.mp hr
        obtain ⟨j, hj, hjid⟩ := hv.idsFresh r0 hr0
        refine ⟨j, hj, ?_⟩
        rw [← hfr]
        by_cases hkey : payloadKey r0.2 = memberKey m
        · simp [hkey, hjid]
        · simp [hkey, hjid]
    · have hl : destLookup st (memberKey m) = [] := destLookup_eq_nil_of_notMem hk
      refine ⟨?_, ?_, ?_⟩
      · rw [keysList_stepMember_create h hl]
        simp [List.nodup_append, hv.keysNodup, hk]
      · rw [stepMember_create h hl]
        have hnew : freshItemId st.nextId ∉ st.records.map Prod.fst := by
          intro hmem
          obtain ⟨r, hr, hfr⟩ := List.mem_map.mp hmem
          obtain ⟨j, hj, hjid⟩ := hv.idsFresh r hr
          have hje : j = st.nextId := freshItemId_inj j st.nextId (by rw [← hjid, hfr])
          omega
        show ((st.records ++ [(freshItemId st.nextId, memberPayload m)]).map Prod.fst).Nodup
        rw [List.map_append]
        simp [List.nodup_append, hv.idsNodup, hnew]
      · rw [stepMember_create h hl]
        intro r hr
        simp only [List.mem_append, List.mem_singleton] at hr
        rcases hr with hr | hr
        · obtain ⟨j, hj, hjid⟩ := hv.idsFresh r hr
          exact ⟨j, by show j < st.nextId + 1; omega, hjid⟩
        · exact ⟨st.nextId, by show st.nextId < st.nextId + 1; omega, by rw [hr]⟩
  · rw [stepMember_invalid (Bool.of_not_eq_true h)]
    exact hv

theorem runReconciler_nil (st : DestState) : runReconciler st [] = st := rfl

theorem runReconciler_cons (st : DestState) (m : CircleMember) (ms : List CircleMember) :
    runReconciler st (m :: ms) = runReconciler (stepMember st m) ms := rfl

theorem stepMember_keys {st : DestState} {m : CircleMember} (hv : DestInv st) :
    (∀ k ∈ keysList st, k ∈ keysList (stepMember st m)) ∧
      (essentialPresent m = true → memberKey m ∈ keysList (stepMember st m)) := by
  by_cases h : essentialPresent m = true
  · by_cases hk : memberKey m ∈ keysList st
    · rw [keysList_stepMember_update hv h hk]
      exact ⟨fun k hk2 => hk2, fun _ => hk⟩
    · rw [keysList_stepMember_create h (destLookup_eq_nil_of_notMem hk)]
      constructor
      · intro k hk2
        exact List.mem_append.mpr (Or.inl hk2)
      · intro _
        exact List.mem_append.mpr (Or.inr (List.mem_singleton.mpr rfl))
  · rw [stepMember_invalid (Bool.of_not_eq_true h)]
    exact ⟨fun k hk2 => hk2, fun hvalid => absurd hvalid h⟩

theorem run_destInv_cover (ms : List CircleMember) :
    ∀ st : DestState, DestInv st →
      DestInv (runReconciler st ms) ∧
      (∀ k ∈ keysList st, k ∈ keysList (runReconciler st ms)) ∧
      (∀ m ∈ ms, essentialPresent m = true →
        memberKey m ∈ keysList (runReconciler st ms)) := by
  induction ms with
  | nil =>
    intro st hv
    refine ⟨hv, fun k hk => hk, ?_⟩
    intro m hm
    exact absurd hm (List.not_mem_nil m)
  | cons m rest ih =>
    intro st hv
    rw [runReconciler_cons]
    obtain ⟨ihInv, ihMono, ihCov⟩ := ih (stepMember st m) (destInv_step hv)
    obtain ⟨hkeep, hself⟩ := stepMember_keys hv (m := m)
    refine ⟨ihInv, ?_, ?_⟩
    · intro k hk
      exact ihMono k (hkeep k hk)
    · intro m2 hm2 hval2
      rcases List.mem_cons.mp hm2 with rfl | hm2
      · exact ihMono (memberKey m2) (hself hval2)
      · exact ihCov m2 hm2 hval2

theorem stepMember_key_eq_payload {st : DestState} {m : CircleMember} (hv : DestInv st)
    (h : essentialPresent m = true) :
    ∀ r ∈ (stepMember st m).records,
      payloadKey r.2 = memberKey m → r.2 = memberPayload m := by
  have hid : jsTruthy m.id = true := (essentialPresent_iff.mp h).1
  by_cases hk : memberKey m ∈ keysList st
  · rw [stepMember_update_keymap hv h hk]
    intro r hr hkey
    obtain ⟨r0, hr0, hfr⟩ := List.mem_map.mp hr
    by_cases hkey0 : payloadKey r0.2 = memberKey m
    · rw [← hfr]
      simp [hkey0]
    · exfalso
      apply hkey0
      rw [← hfr] at hkey
      simp [hkey0] at hkey
  · rw [stepMember_create h (destLookup_eq_nil_of_notMem hk)]
    intro r hr hkey
    simp only [List.mem_append, List.mem_singleton] at hr
    rcases hr with hr | hr
    · exfalso
      apply hk
      rw [← hkey]
      exact List.mem_map.mpr ⟨r, hr, rfl⟩
    · rw [hr]

theorem stepMember_untouched {st : DestState} {m : CircleMember} (hv : DestInv st) :
    ∀ r ∈ (stepMember st m).records,
      (essentialPresent m = false ∨ payloadKey r.2 ≠ memberKey m) → r ∈ st.records := by
  by_cases h : essentialPresent m = true
  · have hid : jsTruthy m.id = true := (essentialPresent_iff.mp h).1
    by_cases hk : memberKey m ∈ keysList st
    · rw [stepMember_update_keymap hv h hk]
      intro r hr hne
      rcases hne with hne | hne
      · rw [h] at hne
        exact absurd hne (by decide)
      · obtain ⟨r0, hr0, hfr⟩ := List.mem_map.mp hr
        by_cases hkey0 : payloadKey r0.2 = memberKey m
        · exfalso
          apply hne
          rw [← hfr]
          simp [hkey0, payloadKey_memberPayload hid]
        · rw [← hfr]
          simp only [hkey0, beq_iff_eq, if_neg]
          exact hr0
    · rw [stepMember_create h (destLookup_eq_nil_of_notMem hk)]
      intro r hr hne
      simp only [List.mem_append, List.mem_singleton] at hr
      rcases hr with hr | hr
      · exact hr
      · exfalso
        rcases hne with hne | hne
        · rw [h] at hne
          exact Bool.true_eq_false.mp hne
        · apply hne
          rw [hr]
          exact payloadKey_memberPayload hid
  · rw [stepMember_invalid (Bool.of_not_eq_true h)]
    intro r hr _
    exact hr

theorem lastPayloadFor_nil (k : String) : lastPayloadFor [] k = none := rfl

theorem lastPayloadFor_cons (m : CircleMember) (ms : List CircleMember) (k : String) :
    lastPayloadFor (m :: ms) k =
      match lastPayloadFor ms k with
      | some p => some p
      | none =>
        if essentialPresent m && (memberKey m == k) then some (memberPayload m)
        else none := rfl

theorem run_lastPayload (ms : List CircleMember) :
    ∀ st : DestState, DestInv st →
      ∀ r ∈ (runReconciler st ms).records,
        lastPayloadFor ms (payloadKey r.2) = some r.2 ∨
          (lastPayloadFor ms (payloadKey r.2) = none ∧ r ∈ st.records) := by
  induction ms with
  | nil =>
    intro st hv r hr
    exact Or.inr ⟨rfl, hr⟩
  | cons m rest ih =>
    intro st hv r hr
    rw [runReconciler_cons] at hr
    rcases ih (stepMember st m) (destInv_step hv) r hr with hsome | ⟨hnone, hmem⟩
    · left
      rw [lastPayloadFor_cons, hsome]
    · by_cases hvalid : essentialPresent m = true
      · by_cases hkeyeq : payloadKey r.2 = memberKey m
        · left
          have hpay : r.2 = memberPayload m :=
            stepMember_key_eq_payload hv hvalid r hmem hkeyeq
          rw [lastPayloadFor_cons, hnone]
          have hcond : (essentialPresent m && (memberKey m == payloadKey r.2)) = true := by
            simp [hvalid, hkeyeq]
          rw [hcond]
          simp [hpay]
        · right
          refine ⟨?_, stepMember_untouched hv r hmem (Or.inr hkeyeq)⟩
          rw [lastPayloadFor_cons, hnone]
          have hcond : (essentialPresent m && (memberKey m == payloadKey r.2)) = false := by
            simp
            intro _
            exact fun he => hkeyeq he.symm
          rw [hcond]
          rfl
      · have hinv : essentialPresent m = false := Bool.of_not_eq_true hvalid
        right
        refine ⟨?_, stepMember_untouched hv r hmem (Or.inl hinv)⟩
        rw [lastPayloadFor_cons, hnone]
        have hcond : (essentialPresent m && (memberKey m == payloadKey r.2)) = false := by
          simp [hinv]
        rw [hcond]
        rfl

theorem run_inplace (ms : List CircleMember) :
    ∀ st : DestState, DestInv st →
      (∀ m ∈ ms, essentialPresent m = true → memberKey m ∈ keysList st) →
      runReconciler st ms =
        ⟨st.records.map (fun r =>
            match lastPayloadFor ms (payloadKey r.2) with
            | some p => (r.1, p)
            | none => r),
         st.nextId⟩ := by
  induction ms with
  | nil =>
    intro st hv hcov
    rw [runReconciler_nil]
    have hmap : st.records.map (fun r =>
        match lastPayloadFor [] (payloadKey r.2) with
        | some p => (r.1, p)
        | none => r) = st.records :=
      map_eq_self_of_ptwise _ _ (fun r hr => rfl)
    rw [hmap]
  | cons m rest ih =>
    intro st hv hcov
    rw [runReconciler_cons]
    by_cases hvalid : essentialPresent m = true
    · have hid : jsTruthy m.id = true := (essentialPresent_iff.mp hvalid).1
      have hk : memberKey m ∈ keysList st := hcov m (List.mem_cons_self m rest) hvalid
      have hcov2 : ∀ m2 ∈ rest, essentialPresent m2 = true →
          memberKey m2 ∈ keysList (stepMember st m) := by
        intro m2 hm2 hval2
        rw [keysList_stepMember_update hv hvalid hk]
        exact hcov m2 (List.mem_cons_of_mem m hm2) hval2
      rw [ih (stepMember st m) (destInv_step hv) hcov2]
      have hrecs : (stepMember st m).records =
          st.records.map (fun r =>
            if payloadKey r.2 == memberKey m then (r.1, memberPayload m) else r) := by
        rw [stepMember_update_keymap hv hvalid hk]
      have hnext : (stepMember st m).nextId = st.nextId := by
        rw [stepMember_update_keymap hv hvalid hk]
      rw [hrecs, hnext, List.map_map]
      congr 1
      apply List.map_congr_left
      intro r hr
      simp only [Function.comp_apply]
      have hkp : payloadKey (memberPayload m) = memberKey m := payloadKey_memberPayload hid
      by_cases hkey : payloadKey r.2 = memberKey m
      · have hf : (if payloadKey r.2 == memberKey m then (r.1, memberPayload m) else r) =
            (r.1, memberPayload m) := by simp [hkey]
        rw [hf]
        cases hlast : lastPayloadFor rest (memberKey m) with
        | some p =>
          rw [lastPayloadFor_cons]
          rw [hkey]
          simp [hkp, hlast]
        | none =>
          rw [lastPayloadFor_cons]
          rw [hkey]
          simp [hkp, hlast, hvalid]
      · have hf : (if payloadKey r.2 == memberKey m then (r.1, memberPayload m) else r) = r := by
          simp [hkey]
        rw [hf, lastPayloadFor_cons]
        cases hlast : lastPayloadFor rest (payloadKey r.2) with
        | some p => simp [hlast]
        | none =>
          have hkey2 : ¬(memberKey m = payloadKey r.2) := fun he => hkey he.symm
          simp [hlast, hkey2]
    · have hinv : essentialPresent m = false := Bool.of_not_eq_true hvalid
      rw [stepMember_invalid hinv]
      have hcov2 : ∀ m2 ∈ rest, essentialPresent m2 = true → memberKey m2 ∈ keysList st :=
        fun m2 hm2 hval2 => hcov m2 (List.mem_cons_of_mem m hm2) hval2
      rw [ih st hv hcov2]
      congr 1
      apply List.map_congr_left
      intro r hr
      rw [lastPayloadFor_cons]
      cases hlast : lastPayloadFor rest (payloadKey r.2) with
      | some p => simp [hlast]
      | none => simp [hlast, hinv]

/-- C7 (confirmed): against a destination that faithfully records creates
and updates and answers lookups by external identifier, a second reconciler
run over the same snapshot changes nothing — the destination keeps exactly
one record per valid member key, no duplicate is ever created, and each
stored record carries the payload mapped from the last valid member of the
snapshot with its key. -/
theorem reconciler_idempotent (ms : List CircleMember) :
    runReconciler (runReconciler emptyDest ms) ms = runReconciler emptyDest ms ∧
    (∀ m ∈ ms, essentialPresent m = true →
       ((runReconciler (runReconciler emptyDest ms) ms).records.filter
          (fun r => payloadKey r.2 == memberKey m)).length = 1) ∧
    (∀ r ∈ (runReconciler (runReconciler emptyDest ms) ms).records,
       lastPayloadFor ms (payloadKey r.2) = some r.2) := by
  obtain ⟨hv1, hmono, hcov⟩ := run_destInv_cover ms emptyDest destInv_empty
  have hpay1 : ∀ r ∈ (runReconciler emptyDest ms).records,
      lastPayloadFor ms (payloadKey r.2) = some r.2 := by
    intro r hr
    rcases run_lastPayload ms emptyDest destInv_empty r hr with h | ⟨h1, hmem⟩
    · exact h
    · exact absurd hmem (List.not_mem_nil r)
  have hid2 : runReconciler (runReconciler emptyDest ms) ms = runReconciler emptyDest ms := by
    rw [run_inplace ms (runReconciler emptyDest ms) hv1 hcov]
    have hmap : (runReconciler emptyDest ms).records.map (fun r =>
        match lastPayloadFor ms (payloadKey r.2) with
        | some p => (r.1, p)
        | none => r) = (runReconciler emptyDest ms).records := by
      apply map_eq_self_of_ptwise
      intro r hr
      rw [hpay1 r hr]
    rw [hmap]
  refine ⟨hid2, ?_, ?_⟩
  · intro m hm hval
    rw [hid2]
    have hknd : ((runReconciler emptyDest ms).records.map
        (fun r => payloadKey r.2)).Nodup := hv1.keysNodup
    have hkm : memberKey m ∈ (runReconciler emptyDest ms).records.map
        (fun r => payloadKey r.2) := hcov m hm hval
    exact length_filter_key_one (fun r => payloadKey r.2)
      (runReconciler emptyDest ms).records (memberKey m) hknd hkm
  · intro r hr
    rw [hid2] at hr
    exact hpay1 r hr

/-- A snapshot with two valid members sharing a key and one invalid member. -/
def demoMemberA : CircleMember :=
  { id := .vStr "9", name := some "Ann", email := some "a@example.com",
    profile := some { bio := some "one" } }

/-- Second valid member with the same key but different optional fields. -/
def demoMemberB : CircleMember :=
  { id := .vStr "9", name := some "Ann", email := some "a@example.com",
    profile := some { bio := some "two" } }

/-- A member the reconciler skips (id 0 is falsy). -/
def demoInvalid : CircleMember :=
  { id := .vNum 0, name := some "Bad", email := some "b@example.com" }

/-- The concrete snapshot used by the C7 witness. -/
def demoSnapshot : List CircleMember := [demoMemberA, demoInvalid, demoMemberB]

/-- Witness for C7 on a concrete snapshot with a duplicate key and an
invalid member: the second run is a no-op and the shared key holds exactly
one record. -/
theorem reconciler_idempotent_witness :
    runReconciler (runReconciler emptyDest demoSnapshot) demoSnapshot =
      runReconciler emptyDest demoSnapshot ∧
    ((runReconciler (runReconciler emptyDest demoSnapshot) demoSnapshot).records.filter
       (fun r => payloadKey r.2 == memberKey demoMemberA)).length = 1 := by
  have h := reconciler_idempotent demoSnapshot
  exact ⟨h.1, h.2.1 demoMemberA (by decide) (by decide)⟩
